import Mathlib

/-!
Verification of the numeric codec in onnx/numpy_helper.py.

The embedding represents float32 values by their 32-bit pattern (a Nat below
2^32), exactly as the source constructs them: the decoders build the bit
pattern with masks and shifts and reinterpret it, so bit-level equality in
the model is bit-level equality of the produced numpy float32 values.
Python exceptions are modelled by an error type; fallible functions return
Except. The model assumes a little-endian host (sys.byteorder == "little"),
so the big-endian byte-swap branches of the source are no-ops.
-/

namespace OnnxNumpyHelper

/-- Error taxonomy for the Python exceptions raised by numpy_helper:
ValueError on an out-of-range bit pattern, NotImplementedError on an
unsupported variant or element kind, TypeError on heterogeneous containers
and argument-type failures, IndexError on a missing first key, and a
shape/count mismatch from numpy reshape or frombuffer. The fuelExhausted
constructor is an artifact of the fueled embedding of the recursive
container codec and is proven unreachable on the inputs of every theorem. -/
inductive Err where
  | rangeError
  | unsupported
  | typeMismatch
  | indexError
  | shapeError
  | fuelExhausted
  deriving DecidableEq

/-- Bit pattern of np.float32(np.nan): positive quiet NaN. -/
def f32_nan : Nat := 0x7FC00000

/-- Bit pattern of np.float32(-np.nan): negative quiet NaN. -/
def f32_neg_nan : Nat := 0xFFC00000

/-- Bit pattern of np.float32(np.inf). -/
def f32_inf : Nat := 0x7F800000

/-- Bit pattern of np.float32(-np.inf). -/
def f32_neg_inf : Nat := 0xFF800000

/-- The scalar float8e4m3 decoder `_float8e4m3fn_to_float32_scalar(ival, uz)`
of the source, returning the bit pattern of the produced float32.
Mirrors the source line by line: range check, per-variant NaN table,
mask extraction, the two unrolled subnormal renormalization steps,
and the normal-path recomposition. -/
def float8e4m3fn_to_float32_scalar (ival : Nat) (uz : Bool) : Except Err Nat :=
  if 255 < ival then .error .rangeError
  else
    let exponent_bias : Nat := if uz then 8 else 7
    -- Per-variant special-value table (checked before the generic decode).
    if uz ∧ ival = 0x80 then .ok f32_nan
    else if (¬ uz) ∧ ival = 0xFF then .ok f32_neg_nan
    else if (¬ uz) ∧ ival = 0x7F then .ok f32_nan
    else
      let sign := ival &&& 0x80
      let exponent := (ival &&& 0x78) >>> 3
      let mantissa := ival &&& 0x07
      let result := sign <<< 24
      if exponent = 0 then
        if mantissa > 0 then
          -- Subnormal: two unrolled renormalization steps, as in the source.
          let exponent := 127 - exponent_bias
          let p1 : Nat × Nat :=
            if mantissa &&& 0b100 = 0 then ((mantissa &&& 0b011) <<< 1, exponent - 1)
            else (mantissa, exponent)
          let p2 : Nat × Nat :=
            if p1.1 &&& 0b100 = 0 then ((p1.1 &&& 0b011) <<< 1, p1.2 - 1)
            else p1
          .ok (result ||| ((p2.1 &&& 0b011) <<< 21) ||| (p2.2 <<< 23))
        else .ok result
      else
        .ok (result ||| (mantissa <<< 20) ||| ((exponent + 127 - exponent_bias) <<< 23))

/-- The scalar float8e5m2 decoder `_float8e5m2_to_float32_scalar(ival, fn, uz)`
of the source, returning the bit pattern of the produced float32. -/
def float8e5m2_to_float32_scalar (ival : Nat) (fn uz : Bool) : Except Err Nat :=
  if 255 < ival then .error .rangeError
  else if fn ∧ uz then
    if ival = 0x80 then .ok f32_nan
    else .ok (float8e5m2_generic ival 16)
  else if (¬ fn) ∧ (¬ uz) then
    if 0xFD ≤ ival then .ok f32_neg_nan
    else if 0x7D ≤ ival ∧ ival ≤ 0x7F then .ok f32_nan
    else if ival = 0xFC then .ok f32_neg_inf
    else if ival = 0x7C then .ok f32_inf
    else .ok (float8e5m2_generic ival 15)
  else .error .unsupported
where
  /-- Generic (non-special) e5m2 decode with the given exponent bias:
  mask extraction, one unrolled subnormal renormalization step, and the
  normal-path recomposition, as in the source. -/
  float8e5m2_generic (ival exponent_bias : Nat) : Nat :=
    let sign := ival &&& 0x80
    let exponent := (ival &&& 0x7C) >>> 2
    let mantissa := ival &&& 0x03
    let result := sign <<< 24
    if exponent = 0 then
      if mantissa > 0 then
        let exponent := 127 - exponent_bias
        let p1 : Nat × Nat :=
          if mantissa &&& 0b10 = 0 then ((mantissa &&& 0b01) <<< 1, exponent - 1)
          else (mantissa, exponent)
        result ||| ((p1.1 &&& 0b01) <<< 22) ||| (p1.2 <<< 23)
      else result
    else
      result ||| (mantissa <<< 21) ||| ((exponent + 127 - exponent_bias) <<< 23)

/-- The two 8-bit minifloat families (1-4-3 and 1-5-2 bit layouts). -/
inductive Family where
  | E4M3
  | E5M2
  deriving DecidableEq

/-- decode_minifloat (spec 4.1): the family dispatch of the source.
For E4M3 the wrapper float8e4m3_to_float32 rejects fn=False with
NotImplementedError before any bit pattern is examined; for E5M2 the scalar
function itself rejects the mixed (fn, uz) combinations. -/
def decode_minifloat (fam : Family) (fn uz : Bool) (ival : Nat) : Except Err Nat :=
  match fam with
  | .E4M3 => if ¬ fn then .error .unsupported else float8e4m3fn_to_float32_scalar ival uz
  | .E5M2 => float8e5m2_to_float32_scalar ival fn uz

/-- The four supported minifloat variants. -/
inductive Variant where
  | e4m3fn
  | e4m3fnuz
  | e5m2
  | e5m2fnuz
  deriving DecidableEq, Fintype

def Variant.family : Variant → Family
  | .e4m3fn => .E4M3
  | .e4m3fnuz => .E4M3
  | .e5m2 => .E5M2
  | .e5m2fnuz => .E5M2

def Variant.fn : Variant → Bool
  | .e4m3fn => true
  | .e4m3fnuz => true
  | .e5m2 => false
  | .e5m2fnuz => true

def Variant.uz : Variant → Bool
  | .e4m3fn => false
  | .e4m3fnuz => true
  | .e5m2 => false
  | .e5m2fnuz => true

/-- Exponent bias per variant: 7 (E4M3 signed), 8 (E4M3 unique-zero),
15 (E5M2 signed), 16 (E5M2 finite + unique-zero). -/
def Variant.bias : Variant → Nat
  | .e4m3fn => 7
  | .e4m3fnuz => 8
  | .e5m2 => 15
  | .e5m2fnuz => 16

/-- Mantissa field width of the family: 3 for E4M3, 2 for E5M2. -/
def Variant.mantissaWidth : Variant → Nat
  | .e4m3fn => 3
  | .e4m3fnuz => 3
  | .e5m2 => 2
  | .e5m2fnuz => 2

/-- Exponent field width of the family: 4 for E4M3, 5 for E5M2. -/
def Variant.expWidth : Variant → Nat
  | .e4m3fn => 4
  | .e4m3fnuz => 4
  | .e5m2 => 5
  | .e5m2fnuz => 5

/-- Decode one bit pattern under a supported variant. -/
def Variant.decode (v : Variant) (ival : Nat) : Except Err Nat :=
  decode_minifloat v.family v.fn v.uz ival

/-- True when a float32 bit pattern is a NaN or an infinity
(exponent field all ones). -/
def isSpecial32 (r : Nat) : Bool := (r >>> 23) &&& 0xFF == 0xFF

/-- The special-value table of the spec (section 4.1), written from the
spec's words for comparison with the decoder: for each supported variant,
the bit patterns the spec designates as NaN or infinity codes and the exact
float32 value required for each. -/
def specSpecialTable (v : Variant) (i : Nat) : Option Nat :=
  match v with
  | .e4m3fnuz => if i = 0x80 then some f32_nan else none
  | .e4m3fn =>
    if i = 0xFF then some f32_neg_nan
    else if i = 0x7F then some f32_nan
    else none
  | .e5m2fnuz => if i = 0x80 then some f32_nan else none
  | .e5m2 =>
    if 0xFD ≤ i ∧ i ≤ 0xFF then some f32_neg_nan
    else if 0x7D ≤ i ∧ i ≤ 0x7F then some f32_nan
    else if i = 0xFC then some f32_neg_inf
    else if i = 0x7C then some f32_inf
    else none

/-- Single check for claim C1 at one bit pattern: at a code the spec marks
special, the decoder returns exactly the required float32 value; at every
other pattern it returns a float32 that is neither NaN nor an infinity. -/
def decodeMatchesSpecialTable (v : Variant) (i : Nat) : Bool :=
  match specSpecialTable v i, v.decode i with
  | some s, .ok r => r == s
  | some _, .error _ => false
  | none, .ok r => ! isSpecial32 r
  | none, .error _ => false

/-- The spec's subnormal renormalization loop (section 4.1, modelled from the
spec's words for comparison with the source's unrolled steps): while the
mantissa's leading bit, at position w - 1 for mantissa width w, is zero,
shift the mantissa left by one and decrement the working exponent. The fuel
argument (instantiated with w) bounds the loop; w - 1 shifts always reach
the leading bit for a nonzero mantissa below 2 ^ w. -/
def renormalize : Nat → Nat → Nat → Nat → Nat × Nat
  | 0, _, m, e => (m, e)
  | fuel + 1, w, m, e =>
    if m &&& (1 <<< (w - 1)) = 0 then renormalize fuel w (m <<< 1) (e - 1)
    else (m, e)

/-- The spec's recomposition of a renormalized subnormal (section 4.1):
run the renormalization loop with the working exponent initialized to
127 - bias, drop the implicit leading mantissa bit, left-align the remaining
w - 1 mantissa bits into the 23-bit float32 mantissa field, and place the
sign bit at bit 31 and the adjusted exponent into the exponent field. -/
def refSubnormal (w bias sign mantissa : Nat) : Nat :=
  let p := renormalize w w mantissa (127 - bias)
  (sign <<< 31) ||| ((p.1 &&& (2 ^ (w - 1) - 1)) <<< (24 - w)) ||| (p.2 <<< 23)

/-- The real number represented by a finite float32 bit pattern, scaled by
2 ^ 149 so that it is an integer (the smallest positive float32 is
2 ^ (-149)). Requires the exponent field to be below 255. -/
def f32ToScaled (r : Nat) : Int :=
  let s : Int := if r >>> 31 = 1 then -1 else 1
  let e := (r >>> 23) &&& 0xFF
  let m := r &&& 0x7FFFFF
  if e = 0 then s * m
  else s * (2 ^ 23 + m) * 2 ^ (e - 1)

/-- The real number encoded by a non-special minifloat with mantissa width w,
exponent bias, sign bit, exponent field and mantissa field, scaled by
2 ^ 149: a normal value is (1 + m / 2 ^ w) * 2 ^ (exp - bias), a subnormal
value is (m / 2 ^ w) * 2 ^ (1 - bias). -/
def minifloatScaled (w bias sign expf m : Nat) : Int :=
  let s : Int := if sign = 0 then 1 else -1
  if expf = 0 then s * m * 2 ^ (150 - bias - w)
  else s * (2 ^ w + m) * 2 ^ (expf + 149 - bias - w)

/-- Single check for claim C2 at one non-special bit pattern: the decoded
float32 equals the encoded real number exactly, and its bit fields are the
claim's recomposition — normal path with exponent + 127 - bias and the
mantissa left-aligned by 23 - w, signed zero, or the renormalized
subnormal. -/
def decodeMatchesGeneric (v : Variant) (i : Nat) : Bool :=
  let w := v.mantissaWidth
  let b := v.bias
  let sign := (i >>> 7) &&& 1
  let expf := (i >>> w) &&& (2 ^ v.expWidth - 1)
  let m := i &&& (2 ^ w - 1)
  match v.decode i with
  | .error _ => false
  | .ok r =>
    (f32ToScaled r == minifloatScaled w b sign expf m) &&
    (if expf ≠ 0 then
      ((r >>> 23) &&& 0xFF == expf + 127 - b) &&
      (r &&& 0x7FFFFF == m <<< (23 - w)) &&
      (r >>> 31 == sign)
    else if m = 0 then r == sign <<< 31
    else r == refSubnormal w b sign m)

/-- Serialize a value into its w little-endian bytes, as numpy tobytes does
for one element of an element type of width w on a little-endian host. -/
def toLEBytes : Nat → Nat → List Nat
  | 0, _ => []
  | w + 1, v => (v % 256) :: toLEBytes w (v / 256)

/-- Read one value from a list of little-endian bytes, as numpy frombuffer
does for one element on a little-endian host. -/
def fromLEBytes : List Nat → Nat
  | [] => 0
  | b :: r => b + 256 * fromLEBytes r

/-- Split a byte buffer into consecutive w-byte groups (fueled helper;
the fuel is instantiated with the buffer length, which always suffices). -/
def chunksF : Nat → Nat → List Nat → List (List Nat)
  | 0, _, _ => []
  | fuel + 1, w, bs =>
    if bs = [] then []
    else bs.take w :: chunksF fuel w (bs.drop w)

/-- Split a byte buffer into consecutive w-byte groups, the grouping
performed by numpy frombuffer with an element type of width w. -/
def chunks (w : Nat) (bs : List Nat) : List (List Nat) :=
  chunksF bs.length w bs

/-- The numpy element kinds that from_array serializes as raw bytes. The
four float8 variants, bfloat16 and the sub-byte int4/uint4 kinds are not
native numpy dtypes, so no numpy array passed to from_array carries them. -/
inductive DType where
  | uint8 | int8 | uint16 | int16 | uint32 | int32 | uint64 | int64
  | float16 | float32 | float64 | boolean | complex64 | complex128
  deriving DecidableEq

/-- Byte width of one element (numpy itemsize). A complex element is stored
as its real part followed by its imaginary part, so the model treats it as
one pattern of double width with the real part in the low half. -/
def itemsize : DType → Nat
  | .uint8 => 1 | .int8 => 1 | .boolean => 1
  | .uint16 => 2 | .int16 => 2 | .float16 => 2
  | .uint32 => 4 | .int32 => 4 | .float32 => 4
  | .uint64 => 8 | .int64 => 8 | .float64 => 8
  | .complex64 => 8 | .complex128 => 16

/-- The TensorProto.DataType discriminants of the wire schema (spec 6). -/
inductive TensorDataType where
  | UNDEFINED | FLOAT | UINT8 | INT8 | UINT16 | INT16 | INT32 | INT64
  | STRING | BOOL | FLOAT16 | DOUBLE | UINT32 | UINT64
  | COMPLEX64 | COMPLEX128 | BFLOAT16
  | FLOAT8E4M3FN | FLOAT8E4M3FNUZ | FLOAT8E5M2 | FLOAT8E5M2FNUZ
  | UINT4 | INT4
  deriving DecidableEq

/-- Modelled from the spec: helper.np_dtype_to_tensor_dtype (the helper
module is not part of the given source). Spec section 6 fixes the
discriminant list; each native numpy element kind maps to the discriminant
of the same name. -/
def np_dtype_to_tensor_dtype : DType → TensorDataType
  | .float32 => .FLOAT | .uint8 => .UINT8 | .int8 => .INT8
  | .uint16 => .UINT16 | .int16 => .INT16 | .int32 => .INT32
  | .int64 => .INT64 | .boolean => .BOOL | .float16 => .FLOAT16
  | .float64 => .DOUBLE | .uint32 => .UINT32 | .uint64 => .UINT64
  | .complex64 => .COMPLEX64 | .complex128 => .COMPLEX128

/-- Modelled from the spec: helper.tensor_dtype_to_np_dtype restricted to
the discriminants with a native numpy element kind; the remaining
discriminants never reach the plain frombuffer branch of to_array. -/
def tensor_dtype_to_np_dtype : TensorDataType → Option DType
  | .FLOAT => some .float32 | .UINT8 => some .uint8 | .INT8 => some .int8
  | .UINT16 => some .uint16 | .INT16 => some .int16 | .INT32 => some .int32
  | .INT64 => some .int64 | .BOOL => some .boolean | .FLOAT16 => some .float16
  | .DOUBLE => some .float64 | .UINT32 => some .uint32 | .UINT64 => some .uint64
  | .COMPLEX64 => some .complex64 | .COMPLEX128 => some .complex128
  | _ => none

/-- A numeric numpy array: element kind, shape, and the flat element list in
row-major order, each element as its raw bit pattern (a Nat below
256 ^ itemsize). -/
structure NDArray where
  dtype : DType
  shape : List Nat
  data : List Nat
  deriving DecidableEq

/-- Well-formedness of a numeric array: the element count matches the shape
product and every element pattern fits the element width. -/
def NDArray.wf (a : NDArray) : Prop :=
  a.data.length = a.shape.prod ∧ ∀ v ∈ a.data, v < 256 ^ itemsize a.dtype

/-- An element of a numpy object array as from_array inspects it:
a Python str (by its Unicode code points), a byte string, a one-level
nested numpy array of further objects, or any other Python object. -/
inductive PyObj where
  | pstr (s : List Nat)
  | pbytes (b : List Nat)
  | parr (elems : List PyObj)
  | pother

/-- A numpy array as from_array receives it: a numeric array, or an
object-dtype array given by its shape and flattened element list. -/
inductive NpArray where
  | numeric (arr : NDArray)
  | object (shape : List Nat) (flat : List PyObj)

/-- The wire record. Exactly one payload is populated by the encoder: the
raw little-endian byte buffer for numeric arrays, or string_data for
object arrays. The legacy typed fields (int32_data, float_data, ...) are
read-only inputs in the source and are not produced by from_array; no
claim decodes them, so they are not modelled. -/
structure TensorProto where
  dims : List Nat
  data_type : TensorDataType
  raw_data : Option (List Nat)
  string_data : List (List Nat)
  deriving DecidableEq

/-- UTF-8 encoding of one Unicode code point, as Python str.encode. -/
def utf8EncodeChar (c : Nat) : List Nat :=
  if c < 0x80 then [c]
  else if c < 0x800 then
    [0xC0 ||| (c >>> 6), 0x80 ||| (c &&& 0x3F)]
  else if c < 0x10000 then
    [0xE0 ||| (c >>> 12), 0x80 ||| ((c >>> 6) &&& 0x3F), 0x80 ||| (c &&& 0x3F)]
  else
    [0xF0 ||| (c >>> 18), 0x80 ||| ((c >>> 12) &&& 0x3F),
     0x80 ||| ((c >>> 6) &&& 0x3F), 0x80 ||| (c &&& 0x3F)]

/-- UTF-8 encoding of a string given by its code points. -/
def utf8Encode (s : List Nat) : List Nat := s.flatMap utf8EncodeChar

/-- UTF-8 decoding (fueled on the byte count), as bytes.decode("utf-8") on
well-formed input; only used by the string branch of to_array, which no
claim exercises on malformed bytes. -/
def utf8DecodeF : Nat → List Nat → List Nat
  | 0, _ => []
  | _, [] => []
  | fuel + 1, b :: rest =>
    if b < 0x80 then b :: utf8DecodeF fuel rest
    else if b < 0xE0 then
      match rest with
      | c1 :: r => (((b &&& 0x1F) <<< 6) ||| (c1 &&& 0x3F)) :: utf8DecodeF fuel r
      | [] => []
    else if b < 0xF0 then
      match rest with
      | c1 :: c2 :: r =>
        (((b &&& 0x0F) <<< 12) ||| ((c1 &&& 0x3F) <<< 6) ||| (c2 &&& 0x3F))
          :: utf8DecodeF fuel r
      | _ => []
    else
      match rest with
      | c1 :: c2 :: c3 :: r =>
        (((b &&& 0x07) <<< 18) ||| ((c1 &&& 0x3F) <<< 12)
          ||| ((c2 &&& 0x3F) <<< 6) ||| (c3 &&& 0x3F)) :: utf8DecodeF fuel r
      | _ => []

def utf8Decode (bs : List Nat) : List Nat := utf8DecodeF bs.length bs

/-- The inner loop of from_array's object branch applied to a one-level
nested numpy array: str elements are appended UTF-8 encoded and bytes
elements are appended as they are; any other element is silently skipped
(the source's inner for loop has no else branch). -/
def encodeNested (es : List PyObj) : List (List Nat) :=
  es.flatMap fun s =>
    match s with
    | .pstr t => [utf8Encode t]
    | .pbytes b => [b]
    | _ => []

/-- The element walk of from_array's object branch over the flattened
array: str is appended UTF-8 encoded, a nested array goes through the
inner loop, bytes are appended as they are, and any other object raises
NotImplementedError. -/
def fromArrayObject : List PyObj → Except Err (List (List Nat))
  | [] => .ok []
  | .pstr s :: rest => (fromArrayObject rest).map (utf8Encode s :: ·)
  | .parr es :: rest => (fromArrayObject rest).map (encodeNested es ++ ·)
  | .pbytes b :: rest => (fromArrayObject rest).map (b :: ·)
  | .pother :: _ => .error .unsupported

/-- from_array of the source on a little-endian host: dims mirror the
shape; an object-dtype array stores its elements in string_data under the
STRING discriminant; a numeric array stores its raw little-endian bytes
under the discriminant of its dtype. -/
def from_array : NpArray → Except Err TensorProto
  | .object shape flat =>
    (fromArrayObject flat).map fun sd =>
      { dims := shape, data_type := .STRING, raw_data := none, string_data := sd }
  | .numeric arr =>
    .ok { dims := arr.shape
        , data_type := np_dtype_to_tensor_dtype arr.dtype
        , raw_data := some (arr.data.flatMap (toLEBytes (itemsize arr.dtype)))
        , string_data := [] }

/-- to_array of the source on a little-endian host. UNDEFINED is rejected;
STRING decodes string_data as UTF-8 and reshapes; a raw payload of a plain
numeric discriminant is read back with frombuffer and reshaped (reshape
demands an exact element count). The BFLOAT16 and FLOAT8 raw branches pass
dims to decoders whose signatures in this source do not accept a second
positional argument (or forward an fn keyword the vectorized scalar lacks),
so they raise TypeError before decoding; the UINT4/INT4 branches call
unpack_int4, a name this module never defines or imports, raising
NameError. All of these are modelled as errors and are excluded from every
claim. Records with no raw payload read the legacy typed fields, which are
not modelled (no claim decodes them). -/
def to_array (t : TensorProto) : Except Err NpArray :=
  if t.data_type = .UNDEFINED then .error .typeMismatch
  else if t.data_type = .STRING then
    if t.string_data.length = t.dims.prod then
      .ok (.object t.dims (t.string_data.map fun b => .pstr (utf8Decode b)))
    else .error .shapeError
  else
    match t.raw_data with
    | some raw =>
      match t.data_type with
      | .BFLOAT16 | .FLOAT8E4M3FN | .FLOAT8E4M3FNUZ
      | .FLOAT8E5M2 | .FLOAT8E5M2FNUZ => .error .typeMismatch
      | .UINT4 | .INT4 => .error .typeMismatch
      | dt =>
        match tensor_dtype_to_np_dtype dt with
        | none => .error .typeMismatch
        | some d =>
          let w := itemsize d
          if raw.length % w = 0 then
            let data := (chunks w raw).map fromLEBytes
            if data.length = t.dims.prod then
              .ok (.numeric { dtype := d, shape := t.dims, data := data })
            else .error .shapeError
          else .error .shapeError
    | none => .error .typeMismatch

/-- combine_pairs_to_complex of the source: converts alternating
[real, imaginary, ...] scalars to (real, imaginary) pairs, one pair per i
below len / 2, reading fa[i * 2] and fa[i * 2 + 1]. Scalars are modelled as
rationals; the getD default is never read because both indexes are below
the length for every i below len / 2. -/
def combine_pairs_to_complex (fa : List ℚ) : List (ℚ × ℚ) :=
  (List.range (fa.length / 2)).map fun i => (fa.getD (i * 2) 0, fa.getD (i * 2 + 1) 0)

/-- A Python dictionary key as from_dict inspects it: an int, a float
(modelled by a rational), or a str. -/
inductive PyKey where
  | kint (n : Int)
  | kfloat (q : ℚ)
  | kstr (s : List Nat)
  deriving DecidableEq

/-- The numpy type np.result_type resolves for one scalar key. -/
inductive NpKeyType where
  | int64
  | float64
  | ustr
  deriving DecidableEq

/-- np.result_type on one Python scalar key: an int resolves to int64, a
float to float64, a str to a unicode dtype. -/
def np_result_type_key : PyKey → NpKeyType
  | .kint _ => .int64
  | .kfloat _ => .float64
  | .kstr _ => .ustr

/-- Modelled from the spec: helper.np_dtype_to_tensor_dtype on a resolved
key type (the helper module is not part of the given source; spec section 3
admits string keys and fixed-width integer keys, and section 6 fixes the
discriminants). -/
def key_type_to_tensor_dtype : NpKeyType → TensorDataType
  | .int64 => .INT64
  | .float64 => .DOUBLE
  | .ustr => .STRING

/-- A Python value as the container codec inspects it: a numpy array, a
list, or a dict (with insertion-ordered pairs). -/
inductive PyValue where
  | vtensor (arr : NpArray)
  | vlist (elems : List PyValue)
  | vdict (pairs : List (PyKey × PyValue))

/-- The runtime class of a value, as isinstance(elem, type(lst[0]))
distinguishes the three kinds the codec handles. -/
inductive PyType where
  | tyArray
  | tyList
  | tyDict
  deriving DecidableEq

def ptype : PyValue → PyType
  | .vtensor _ => .tyArray
  | .vlist _ => .tyList
  | .vdict _ => .tyDict

/-- np.result_type on one dictionary value: the dtype of a numeric array,
the object dtype of an object array. The source applies it only inside
from_dict's value-homogeneity check; on a list or dict value the numpy
promotion rules are not modelled (no claim passes a dict whose values are
lists or dicts) and the model reports the TypeError numpy raises for a
dict. -/
inductive NpResultType where
  | ndtype (d : DType)
  | objtype
  deriving DecidableEq

def np_result_type_value : PyValue → Except Err NpResultType
  | .vtensor (.numeric arr) => .ok (.ndtype arr.dtype)
  | .vtensor (.object _ _) => .ok .objtype
  | _ => .error .typeMismatch

/-- The SequenceProto element-kind discriminants used by the source. -/
inductive SeqElemType where
  | TENSOR
  | SPARSE_TENSOR
  | SEQUENCE
  | MAP
  deriving DecidableEq

mutual
/-- SequenceProto: element-kind discriminant and one value list per kind. -/
inductive SequenceProto where
  | mk (elem_type : SeqElemType) (tensor_values : List TensorProto)
      (sequence_values : List SequenceProto) (map_values : List MapProto)

/-- MapProto: key discriminant, integer keys, string keys, and the values
sequence. -/
inductive MapProto where
  | mk (key_type : TensorDataType) (keys : List Int)
      (string_keys : List (List Nat)) (values : SequenceProto)
end

def SequenceProto.elem_type : SequenceProto → SeqElemType
  | .mk t _ _ _ => t

def SequenceProto.tensor_values : SequenceProto → List TensorProto
  | .mk _ ts _ _ => ts

def SequenceProto.sequence_values : SequenceProto → List SequenceProto
  | .mk _ _ ss _ => ss

def SequenceProto.map_values : SequenceProto → List MapProto
  | .mk _ _ _ ms => ms

def MapProto.key_type : MapProto → TensorDataType
  | .mk k _ _ _ => k

def MapProto.keys : MapProto → List Int
  | .mk _ ks _ _ => ks

def MapProto.string_keys : MapProto → List (List Nat)
  | .mk _ _ sks _ => sks

def MapProto.values : MapProto → SequenceProto
  | .mk _ _ _ vs => vs

/-- from_list's element-kind selection: an explicit dtype argument wins;
otherwise the first element's runtime class decides (dict to MAP, list to
SEQUENCE, anything else to TENSOR); an empty list defaults to TENSOR. -/
def inferElemType (dtype_ : Option SeqElemType) (lst : List PyValue) : SeqElemType :=
  match dtype_ with
  | some d => d
  | none =>
    match lst with
    | [] => .TENSOR
    | first :: _ =>
      match first with
      | .vdict _ => .MAP
      | .vlist _ => .SEQUENCE
      | _ => .TENSOR

/-- from_list's homogeneity test: a non-empty list fails when some element
is not an instance of the first element's class. -/
def homogeneityFails : List PyValue → Bool
  | [] => false
  | e0 :: rest => ! (rest.all fun e => ptype e == ptype e0)

/-- One element of the TENSOR branch: from_array demands a numpy array and
raises TypeError on anything else. -/
def encodeTensorElem : PyValue → Except Err TensorProto
  | .vtensor a => from_array a
  | _ => .error .typeMismatch

/-- The TENSOR branch loop of from_list. -/
def encodeTensorList : List PyValue → Except Err (List TensorProto)
  | [] => .ok []
  | v :: rest => do
    let t ← encodeTensorElem v
    let ts ← encodeTensorList rest
    .ok (t :: ts)

/-- The integer keys a MapProto stores (protobuf keys field). -/
def intKeyOf : PyKey → Option Int
  | .kint n => some n
  | _ => none

/-- The string keys a MapProto stores (protobuf string_keys field). -/
def strKeyOf : PyKey → Option (List Nat)
  | .kstr s => some s
  | _ => none

/-- The key discriminants valid for the MapProto keys field. -/
def valid_key_int_types : List TensorDataType :=
  [.INT8, .INT16, .INT32, .INT64, .UINT8, .UINT16, .UINT32, .UINT64]

mutual
/-- from_list of the source, fueled: select the element kind, reject a
heterogeneous list with TypeError, then encode every element under the
selected kind (TENSOR via from_array, SEQUENCE recursively, MAP via
from_dict; any other kind raises TypeError). The fuel only decreases when
recursion descends into a nested container; the wrappers below pass fuel
that always suffices. -/
def from_listF : Nat → List PyValue → Option SeqElemType → Except Err SequenceProto
  | 0, _, _ => .error .fuelExhausted
  | fuel + 1, lst, dtype_ =>
    let elem_type := inferElemType dtype_ lst
    if homogeneityFails lst then .error .typeMismatch
    else
      match elem_type with
      | .TENSOR => (encodeTensorList lst).map fun ts => .mk .TENSOR ts [] []
      | .SEQUENCE => (encodeSeqListF fuel lst).map fun ss => .mk .SEQUENCE [] ss []
      | .MAP => (encodeMapListF fuel lst).map fun ms => .mk .MAP [] [] ms
      | _ => .error .typeMismatch

/-- The SEQUENCE branch loop of from_list: every element goes through
from_list (a non-list element raises TypeError). -/
def encodeSeqListF : Nat → List PyValue → Except Err (List SequenceProto)
  | 0, _ => .error .fuelExhausted
  | _ + 1, [] => .ok []
  | fuel + 1, .vlist es :: rest => do
    let s ← from_listF fuel es none
    let ss ← encodeSeqListF fuel rest
    .ok (s :: ss)
  | _ + 1, _ :: _ => .error .typeMismatch

/-- The MAP branch loop of from_list: every element goes through from_dict
(a non-dict element raises TypeError). -/
def encodeMapListF : Nat → List PyValue → Except Err (List MapProto)
  | 0, _ => .error .fuelExhausted
  | _ + 1, [] => .ok []
  | fuel + 1, .vdict ps :: rest => do
    let m ← from_dictF fuel ps
    let ms ← encodeMapListF fuel rest
    .ok (m :: ms)
  | _ + 1, _ :: _ => .error .typeMismatch

/-- from_dict of the source, fueled: read the first key's resolved type
(IndexError on an empty dict), map it to a discriminant, reject
heterogeneous key types and heterogeneous value types with TypeError,
encode the values with from_list, and store the keys into string_keys when
the discriminant is STRING, into keys when it is one of the eight
fixed-width integer discriminants, and into neither field otherwise. -/
def from_dictF : Nat → List (PyKey × PyValue) → Except Err MapProto
  | 0, _ => .error .fuelExhausted
  | fuel + 1, pairs =>
    match pairs.map Prod.fst with
    | [] => .error .indexError
    | k0 :: _ =>
      let keys := pairs.map Prod.fst
      let raw_key_type := np_result_type_key k0
      let key_type := key_type_to_tensor_dtype raw_key_type
      if ! (keys.all fun k => np_result_type_key k == raw_key_type) then
        .error .typeMismatch
      else
        match pairs.map Prod.snd with
        | [] => .error .indexError
        | v0 :: _ =>
          let values := pairs.map Prod.snd
          match np_result_type_value v0 with
          | .error e => .error e
          | .ok raw_value_type =>
            if ! (values.all fun v =>
                match np_result_type_value v with
                | .ok t => t == raw_value_type
                | .error _ => false) then
              .error .typeMismatch
            else
              match from_listF fuel values none with
              | .error e => .error e
              | .ok value_seq =>
                .ok (.mk key_type
                  (if key_type != .STRING && valid_key_int_types.contains key_type then
                    keys.filterMap intKeyOf
                  else [])
                  (if key_type == .STRING then keys.filterMap strKeyOf else [])
                  value_seq)
end

mutual
/-- Structural size of a value, used as fuel for the container codec;
it strictly exceeds the container nesting depth. -/
def sizeV : PyValue → Nat
  | .vtensor _ => 1
  | .vlist es => 1 + sizeVL es
  | .vdict ps => 1 + sizeVP ps

def sizeVL : List PyValue → Nat
  | [] => 1
  | e :: r => 1 + sizeV e + sizeVL r

def sizeVP : List (PyKey × PyValue) → Nat
  | [] => 1
  | (_, v) :: r => 1 + sizeV v + sizeVP r
end

/-- from_list of the source: the fuel is a size bound that the nesting
depth of the input can never exhaust. -/
def from_list (lst : List PyValue) (dtype_ : Option SeqElemType) :
    Except Err SequenceProto :=
  from_listF (sizeVL lst + 1) lst dtype_

/-- from_dict of the source: the fuel is a size bound that the nesting
depth of the input can never exhaust. -/
def from_dict (pairs : List (PyKey × PyValue)) : Except Err MapProto :=
  from_dictF (sizeVP pairs + 2) pairs


theorem toLEBytes_length (w v : Nat) : (toLEBytes w v).length = w := by
  induction w generalizing v with
  | zero => rfl
  | succ n ih => simp [toLEBytes, ih]

theorem fromLEBytes_toLEBytes (w v : Nat) (h : v < 256 ^ w) :
    fromLEBytes (toLEBytes w v) = v := by
  induction w generalizing v with
  | zero => simp [toLEBytes, fromLEBytes]; omega
  | succ n ih =>
    have hdiv : v / 256 < 256 ^ n := by
      rw [Nat.div_lt_iff_lt_mul (by norm_num)]
      calc v < 256 ^ (n + 1) := h
        _ = 256 ^ n * 256 := by ring
    simp [toLEBytes, fromLEBytes, ih _ hdiv]
    omega

theorem chunksF_fuel (f1 f2 w : Nat) (bs : List Nat) (hw : 0 < w)
    (h1 : bs.length ≤ f1) (h2 : bs.length ≤ f2) :
    chunksF f1 w bs = chunksF f2 w bs := by
  induction f1 generalizing f2 bs with
  | zero =>
    have : bs = [] := by
      cases bs with
      | nil => rfl
      | cons b r => simp at h1
    subst this
    cases f2 <;> simp [chunksF]
  | succ n ih =>
    cases f2 with
    | zero =>
      have : bs = [] := by
        cases bs with
        | nil => rfl
        | cons b r => simp at h2
      subst this
      simp [chunksF]
    | succ m =>
      by_cases hbs : bs = []
      · subst hbs; simp [chunksF]
      · simp only [chunksF, if_neg hbs]
        congr 1
        exact ih m (bs.drop w) (by simp; omega) (by simp; omega)

theorem chunks_cons (w : Nat) (hw : 0 < w) (c rest : List Nat) (hc : c.length = w) :
    chunks w (c ++ rest) = c :: chunks w rest := by
  have hne : c ++ rest ≠ [] := by
    intro h
    have := congrArg List.length h
    simp [hc] at this
    omega
  have htake : (c ++ rest).take w = c := by
    rw [← hc]
    simp
  have hdrop : (c ++ rest).drop w = rest := by
    rw [← hc]
    simp
  have hlen : (c ++ rest).length = w + rest.length := by simp [hc]
  unfold chunks
  rw [hlen]
  have hsucc : w + rest.length = (w - 1 + rest.length) + 1 := by omega
  rw [hsucc]
  simp only [chunksF, if_neg hne, htake, hdrop]
  congr 1
  exact chunksF_fuel (w - 1 + rest.length) rest.length w rest hw (by omega) (le_refl _)

theorem decode_encoded_bytes (w : Nat) (hw : 0 < w) (data : List Nat)
    (hbound : ∀ v ∈ data, v < 256 ^ w) :
    (chunks w (data.flatMap (toLEBytes w))).map fromLEBytes = data := by
  induction data with
  | nil => rfl
  | cons v vs ih =>
    rw [List.flatMap_cons, chunks_cons w hw _ _ (toLEBytes_length w v)]
    simp only [List.map_cons]
    rw [fromLEBytes_toLEBytes w v (hbound v (by simp)), ih (fun x hx => hbound x (by simp [hx]))]

theorem flatMap_toLEBytes_length (w : Nat) (data : List Nat) :
    (data.flatMap (toLEBytes w)).length = data.length * w := by
  induction data with
  | nil => simp
  | cons v vs ih => simp [toLEBytes_length, ih]; ring

theorem sum_map_toLEBytes_length (w : Nat) (data : List Nat) :
    (List.map (List.length ∘ toLEBytes w) data).sum = data.length * w := by
  induction data with
  | nil => simp
  | cons v vs ih => simp [toLEBytes_length, ih]; ring


/-- True when an object-array element is a Python str or byte string. -/
def isStrOrBytes : PyObj → Bool
  | .pstr _ => true
  | .pbytes _ => true
  | _ => false

/-- The byte string one str or bytes element contributes to string_data. -/
def encodeStrElem : PyObj → List Nat
  | .pstr s => utf8Encode s
  | .pbytes b => b
  | _ => []

theorem fromArrayObject_all_str (flat : List PyObj)
    (h : ∀ e ∈ flat, isStrOrBytes e = true) :
    fromArrayObject flat = .ok (flat.map encodeStrElem) := by
  induction flat with
  | nil => rfl
  | cons e rest ih =>
    have he := h e (by simp)
    have hrest : ∀ x ∈ rest, isStrOrBytes x = true := fun x hx => h x (by simp [hx])
    cases e with
    | pstr s => simp [fromArrayObject, ih hrest, encodeStrElem, Except.map]
    | pbytes b => simp [fromArrayObject, ih hrest, encodeStrElem, Except.map]
    | parr es => simp [isStrOrBytes] at he
    | pother => simp [isStrOrBytes] at he

theorem fromArrayObject_pother (flat : List PyObj) (h : PyObj.pother ∈ flat) :
    fromArrayObject flat = .error .unsupported := by
  induction flat with
  | nil => simp at h
  | cons e rest ih =>
    cases e with
    | pother => rfl
    | pstr s =>
      have hr : PyObj.pother ∈ rest := by
        rcases List.mem_cons.mp h with hc | hr
        · exact absurd hc (by simp)
        · exact hr
      simp [fromArrayObject, ih hr, Except.map]
    | pbytes b =>
      have hr : PyObj.pother ∈ rest := by
        rcases List.mem_cons.mp h with hc | hr
        · exact absurd hc (by simp)
        · exact hr
      simp [fromArrayObject, ih hr, Except.map]
    | parr es =>
      have hr : PyObj.pother ∈ rest := by
        rcases List.mem_cons.mp h with hc | hr
        · exact absurd hc (by simp)
        · exact hr
      simp [fromArrayObject, ih hr, Except.map]

theorem encodeNested_skips (es : List PyObj) (h : ∀ e ∈ es, isStrOrBytes e = false) :
    encodeNested es = [] := by
  induction es with
  | nil => rfl
  | cons e rest ih =>
    have he := h e (by simp)
    have hrest : ∀ x ∈ rest, isStrOrBytes x = false := fun x hx => h x (by simp [hx])
    cases e with
    | pstr s => simp [isStrOrBytes] at he
    | pbytes b => simp [isStrOrBytes] at he
    | parr es2 => simp [encodeNested] at ih ⊢; exact ih hrest
    | pother => simp [encodeNested] at ih ⊢; exact ih hrest

theorem homogeneityFails_of_all_tyArray (lst : List PyValue)
    (h : ∀ v ∈ lst, ptype v = .tyArray) : homogeneityFails lst = false := by
  cases lst with
  | nil => rfl
  | cons e0 rest =>
    simp [homogeneityFails, List.all_eq_true]
    intro x hx
    rw [h x (by simp [hx]), h e0 (by simp)]

theorem encodeTensorList_ok (lst : List PyValue)
    (h : ∀ v ∈ lst, ∃ a : NDArray, v = .vtensor (.numeric a)) :
    ∃ ts, encodeTensorList lst = .ok ts := by
  induction lst with
  | nil => exact ⟨[], rfl⟩
  | cons v rest ih =>
    obtain ⟨ts, hts⟩ := ih (fun x hx => h x (by simp [hx]))
    obtain ⟨a, ha⟩ := h v (by simp)
    subst ha
    refine ⟨{ dims := a.shape, data_type := np_dtype_to_tensor_dtype a.dtype,
              raw_data := some (a.data.flatMap (toLEBytes (itemsize a.dtype))),
              string_data := [] } :: ts, ?_⟩
    simp [encodeTensorList, encodeTensorElem, from_array, hts, Bind.bind, Except.bind]

theorem from_listF_tensor_values (fuel : Nat) (v0 : PyValue) (rest : List PyValue)
    (h : ∀ v ∈ v0 :: rest, ∃ a : NDArray, v = .vtensor (.numeric a)) :
    ∃ ts, from_listF (fuel + 1) (v0 :: rest) none = .ok (.mk .TENSOR ts [] []) := by
  obtain ⟨ts, hts⟩ := encodeTensorList_ok _ h
  have hh : homogeneityFails (v0 :: rest) = false :=
    homogeneityFails_of_all_tyArray _ (fun x hx => by obtain ⟨b, hb⟩ := h x hx; subst hb; rfl)
  obtain ⟨a, ha⟩ := h v0 (by simp)
  subst ha
  exact ⟨ts, by simp [from_listF, inferElemType, hh, hts, Except.map]⟩

theorem from_dictF_float_keys (fuel : Nat) (p0 : PyKey × PyValue)
    (rest : List (PyKey × PyValue)) (d : DType)
    (hk : ∀ p ∈ p0 :: rest, ∃ q, p.1 = PyKey.kfloat q)
    (hv : ∀ p ∈ p0 :: rest, ∃ a : NDArray, p.2 = .vtensor (.numeric a) ∧ a.dtype = d) :
    ∃ m, from_dictF (fuel + 2) (p0 :: rest) = .ok m ∧ m.key_type = .DOUBLE ∧
      m.keys = [] ∧ m.string_keys = [] := by
  obtain ⟨q0, hq0⟩ := hk p0 (by simp)
  obtain ⟨a0, ha0, had0⟩ := hv p0 (by simp)
  have hkey0 : np_result_type_key p0.1 = .float64 := by rw [hq0]; rfl
  have hval0 : np_result_type_value p0.2 = .ok (.ndtype d) := by
    rw [ha0, ← had0]
    rfl
  have hkeys : ((p0.1 :: rest.map Prod.fst).all
      fun k => np_result_type_key k == NpKeyType.float64) = true := by
    rw [List.all_eq_true]
    intro k hkmem
    rcases List.mem_cons.mp hkmem with rfl | hkr
    · rw [hkey0]; rfl
    · obtain ⟨p, hp, rfl⟩ := List.mem_map.mp hkr
      obtain ⟨q, hq⟩ := hk p (by simp [hp])
      rw [hq]
      rfl
  have hvals : ((p0.2 :: rest.map Prod.snd).all fun v =>
      match np_result_type_value v with
      | .ok t => t == NpResultType.ndtype d
      | .error _ => false) = true := by
    rw [List.all_eq_true]
    intro v hvmem
    rcases List.mem_cons.mp hvmem with rfl | hvr
    · rw [hval0]
      simp
    · obtain ⟨p, hp, rfl⟩ := List.mem_map.mp hvr
      obtain ⟨a, ha, had⟩ := hv p (by simp [hp])
      rw [ha, ← had]
      simp [np_result_type_value]
  obtain ⟨ts, hts⟩ := from_listF_tensor_values fuel p0.2 (rest.map Prod.snd)
    (by
      intro v hvmem
      rcases List.mem_cons.mp hvmem with rfl | hvr
      · exact ⟨a0, ha0⟩
      · obtain ⟨p, hp, rfl⟩ := List.mem_map.mp hvr
        obtain ⟨a, ha, _⟩ := hv p (by simp [hp])
        exact ⟨a, ha⟩)
  refine ⟨.mk .DOUBLE [] [] (.mk .TENSOR ts [] []), ?_, rfl, rfl, rfl⟩
  show from_dictF (fuel + 1 + 1) (p0 :: rest) = _
  simp only [from_dictF, List.map_cons, hkey0, key_type_to_tensor_dtype, hkeys,
    hval0, hvals, Bool.not_true, Bool.false_eq_true, if_false, hts]
  simp [valid_key_int_types, MapProto.key_type]


set_option maxRecDepth 100000

deriving instance DecidableEq for Except

/-- C1: For every supported minifloat variant and every bit pattern in
[0, 255], decode_minifloat maps exactly the spec's special codes to special
float32 values, and no other pattern to a NaN or an infinity: E4M3 with
unique_zero maps 0x80 to NaN; E4M3 signed maps 0xFF to negative NaN and
0x7F to positive NaN; E5M2 finite/unique-zero maps 0x80 to NaN; E5M2 signed
maps 0xFD-0xFF to negative NaN, 0x7D-0x7F to positive NaN, 0xFC to negative
infinity and 0x7C to positive infinity, with the stated NaN signs. -/
theorem claim_C1_special_codes :
    ∀ (v : Variant) (i : Fin 256), decodeMatchesSpecialTable v i.val = true := by
  decide

/-- C2: For every supported variant and every non-special bit pattern, the
decoded float32 is exactly the encoded real number: a nonzero exponent
field yields exponent + 127 - bias in the float32 exponent field, the
mantissa left-aligned by 23 minus the mantissa width and the sign at bit
31; a zero exponent with zero mantissa yields a signed zero; a zero
exponent with nonzero mantissa yields the renormalized subnormal,
bit-for-bit equal to the reference recomposition and value. -/
theorem claim_C2_generic_decode :
    ∀ (v : Variant) (i : Fin 256),
      specSpecialTable v i.val = none → decodeMatchesGeneric v i.val = true := by
  decide

theorem claim_C2_generic_decode_witness :
    specSpecialTable .e4m3fn 1 = none ∧ decodeMatchesGeneric .e4m3fn 1 = true :=
  ⟨by decide, claim_C2_generic_decode .e4m3fn ⟨1, by decide⟩ (by decide)⟩

/-- C3: For every numeric dtype (the four float8 variants, bfloat16 and the
sub-byte kinds are not native numpy dtypes and cannot reach from_array) and
every well-formed array of rank at most 4, including zero-sized dimensions,
decoding the record produced by encoding the array returns an array equal
to the original in shape and in the bit pattern of every element. -/
theorem claim_C3_numeric_roundtrip (arr : NDArray) (hwf : arr.wf)
    (hrank : arr.shape.length ≤ 4) :
    from_array (.numeric arr) >>= to_array = .ok (.numeric arr) := by
  obtain ⟨d, shape, data⟩ := arr
  obtain ⟨hlen, hbound⟩ := hwf
  cases d <;>
  · simp only [itemsize] at hbound
    simp [from_array, Bind.bind, Except.bind, to_array, np_dtype_to_tensor_dtype,
          tensor_dtype_to_np_dtype, itemsize, sum_map_toLEBytes_length,
          Nat.mul_mod_left, Nat.mod_one, hlen,
          decode_encoded_bytes _ (by norm_num) data hbound]

/-- A sample well-formed uint16 array for the C3 witness. -/
def sampleArr : NDArray := { dtype := .uint16, shape := [2], data := [7, 65535] }

theorem claim_C3_numeric_roundtrip_witness :
    sampleArr.wf ∧ sampleArr.shape.length ≤ 4 ∧
    from_array (.numeric sampleArr) >>= to_array = .ok (.numeric sampleArr) :=
  ⟨⟨by decide, by decide⟩, by decide,
    claim_C3_numeric_roundtrip sampleArr ⟨by decide, by decide⟩ (by decide)⟩

/-- The complex64 array [1+2j, 3-4j]: each element is the 64-bit pattern of
its real part (low half, float32 bit pattern) and imaginary part (high
half), as stored consecutively in memory by numpy. -/
def complexArr : NDArray :=
  { dtype := .complex64, shape := [2]
  , data := [0x400000003F800000, 0xC080000040400000] }

/-- The record from_array produces for complexArr: its raw payload is the
little-endian serialization of four float32 reals. -/
def complexRecord : TensorProto :=
  { dims := [2], data_type := .COMPLEX64
  , raw_data := some [0x00, 0x00, 0x80, 0x3F, 0x00, 0x00, 0x00, 0x40,
                      0x00, 0x00, 0x40, 0x40, 0x00, 0x00, 0x80, 0xC0]
  , string_data := [] }

/-- C4: Encoding the complex64 array [1+2j, 3-4j] produces a record whose
payload, read as float32 storage, is the four reals 1, 2, 3, -4 in
consecutive real/imaginary order (the four bit patterns decode to the
scaled real values 1, 2, 3, -4 times 2 ^ 149), and decoding that record
returns the original two complex values. -/
theorem claim_C4_complex_roundtrip :
    from_array (.numeric complexArr) = .ok complexRecord ∧
    (chunks 4 (complexRecord.raw_data.getD [])).map fromLEBytes =
      [0x3F800000, 0x40000000, 0x40400000, 0xC0800000] ∧
    [0x3F800000, 0x40000000, 0x40400000, 0xC0800000].map f32ToScaled =
      [2 ^ 149, 2 ^ 150, 3 * 2 ^ 149, -(2 ^ 151)] ∧
    to_array complexRecord = .ok (.numeric complexArr) :=
  ⟨rfl, rfl, by decide, rfl⟩

/-- A dictionary with a float key and a float32 tensor value. -/
def floatKeyDict : List (PyKey × PyValue) :=
  [(.kfloat (1 / 2), .vtensor (.numeric ⟨.float32, [1], [0x3F800000]⟩))]

/-- C5 counterexample: from_dict on a float-keyed dictionary does not fail
with any error; it returns a complete map record (with key_type DOUBLE and
both key fields left empty). -/
theorem claim_C5_counterexample :
    from_dict floatKeyDict =
      .ok (.mk .DOUBLE [] []
        (.mk .TENSOR [⟨[1], .FLOAT, some [0x00, 0x00, 0x80, 0x3F], []⟩] [] [])) := rfl

/-- C5 (amended): for every non-empty dictionary whose keys are all floats
and whose values are all numeric tensors of one dtype, from_dict does not
raise; it returns a map record whose key_type is DOUBLE and whose integer
and string key fields are both empty — the keys are silently discarded
because the key-storage branch covers only STRING and the eight fixed-width
integer discriminants, with no else branch raising an error. -/
theorem claim_C5_amended (pairs : List (PyKey × PyValue)) (d : DType)
    (hne : pairs ≠ [])
    (hk : ∀ p ∈ pairs, ∃ q, p.1 = PyKey.kfloat q)
    (hv : ∀ p ∈ pairs, ∃ a : NDArray, p.2 = .vtensor (.numeric a) ∧ a.dtype = d) :
    ∃ m, from_dict pairs = .ok m ∧ m.key_type = .DOUBLE ∧
      m.keys = [] ∧ m.string_keys = [] := by
  cases pairs with
  | nil => exact absurd rfl hne
  | cons p0 rest => exact from_dictF_float_keys (sizeVP (p0 :: rest)) p0 rest d hk hv

theorem claim_C5_amended_witness :
    floatKeyDict ≠ [] ∧
    ∃ m, from_dict floatKeyDict = .ok m ∧ m.key_type = .DOUBLE ∧
      m.keys = [] ∧ m.string_keys = [] :=
  ⟨by simp [floatKeyDict],
    claim_C5_amended floatKeyDict .float32 (by simp [floatKeyDict])
      (by
        intro p hp
        simp only [floatKeyDict, List.mem_singleton] at hp
        subst hp
        exact ⟨1 / 2, rfl⟩)
      (by
        intro p hp
        simp only [floatKeyDict, List.mem_singleton] at hp
        subst hp
        exact ⟨⟨.float32, [1], [0x3F800000]⟩, rfl, rfl⟩)⟩

/-- C6 counterexample: an object array whose one-level nested array holds
an element that is neither a str nor a byte string does not fail; the
nested non-string element is silently skipped and an empty string record is
returned. -/
theorem claim_C6_counterexample :
    from_array (.object [1] [.parr [.pother]]) =
      .ok { dims := [1], data_type := .STRING, raw_data := none,
            string_data := [] } := rfl

/-- C6 (amended): a top-level element of an object array that is neither a
str, a byte string nor a nested array fails the encode with
NotImplementedError; when all top-level elements are strings or byte
strings each is stored UTF-8 encoded (bytes unchanged) in flattened order;
but inside a one-level nested array, elements that are neither str nor
bytes are silently skipped rather than raising. -/
theorem claim_C6_amended :
    (∀ (shape : List Nat) (flat : List PyObj), PyObj.pother ∈ flat →
      from_array (.object shape flat) = .error .unsupported) ∧
    (∀ (shape : List Nat) (flat : List PyObj), (∀ e ∈ flat, isStrOrBytes e = true) →
      from_array (.object shape flat) =
        .ok { dims := shape, data_type := .STRING, raw_data := none,
              string_data := flat.map encodeStrElem }) ∧
    (∀ (shape : List Nat) (es : List PyObj), (∀ e ∈ es, isStrOrBytes e = false) →
      from_array (.object shape [.parr es]) =
        .ok { dims := shape, data_type := .STRING, raw_data := none,
              string_data := [] }) := by
  refine ⟨?_, ?_, ?_⟩
  · intro shape flat h
    simp [from_array, fromArrayObject_pother flat h, Except.map]
  · intro shape flat h
    simp [from_array, fromArrayObject_all_str flat h, Except.map]
  · intro shape es h
    simp [from_array, fromArrayObject, encodeNested_skips es h, Except.map]

theorem claim_C6_amended_witness :
    (∀ e ∈ [PyObj.pstr [946], PyObj.pbytes [7]], isStrOrBytes e = true) ∧
    from_array (.object [2] [PyObj.pstr [946], PyObj.pbytes [7]]) =
      .ok { dims := [2], data_type := .STRING, raw_data := none,
            string_data := [[0xCE, 0xB2], [7]] } :=
  ⟨by decide,
    (claim_C6_amended.2.1 [2] [PyObj.pstr [946], PyObj.pbytes [7]] (by decide)).trans rfl⟩

/-- C7: decode_minifloat rejects unsupported variant combinations with
NotImplementedError for every bit pattern: the E4M3 family with
finite_only false always fails, and the E5M2 family fails whenever
finite_only and unique_zero are not both false or both true. -/
theorem claim_C7_unsupported_variants :
    ∀ (i : Fin 256) (uz : Bool),
      decode_minifloat .E4M3 false uz i.val = .error .unsupported ∧
      decode_minifloat .E5M2 true false i.val = .error .unsupported ∧
      decode_minifloat .E5M2 false true i.val = .error .unsupported := by
  decide

/-- C8: for every non-empty list whose elements do not all share the first
element's runtime kind, from_list fails with TypeError and returns no
sequence record, whatever the optional dtype argument. -/
theorem claim_C8_heterogeneous_list (e0 : PyValue) (rest : List PyValue)
    (dtype_ : Option SeqElemType) (h : ∃ e ∈ e0 :: rest, ptype e ≠ ptype e0) :
    from_list (e0 :: rest) dtype_ = .error .typeMismatch := by
  have hf : homogeneityFails (e0 :: rest) = true := by
    obtain ⟨e, he, hne⟩ := h
    rcases List.mem_cons.mp he with rfl | hr
    · exact absurd rfl hne
    · simp [homogeneityFails]
      exact ⟨e, hr, by simpa using hne⟩
  show from_listF (sizeVL (e0 :: rest) + 1) (e0 :: rest) dtype_ = .error .typeMismatch
  simp [from_listF, hf]

theorem claim_C8_heterogeneous_list_witness :
    from_list [PyValue.vtensor (.numeric ⟨.uint8, [1], [1]⟩), .vdict []] none =
      .error .typeMismatch :=
  claim_C8_heterogeneous_list _ [.vdict []] none
    ⟨.vdict [], by simp, by simp [ptype]⟩

/-- C9: from_dict applied to the empty dictionary always raises (it reads
the type of the first key, which does not exist, an IndexError) instead of
returning an empty map record; there is no way to encode an empty map. -/
theorem claim_C9_empty_dict : from_dict [] = .error .indexError := rfl

/-- C10: combine_pairs_to_complex returns exactly floor(length / 2) pairs,
pairing the element at each even index with its odd-index successor in
order; an odd-length input never errors, the final unpaired scalar is
silently discarded (appending one scalar to an even-length list leaves the
result unchanged). -/
theorem claim_C10_combine_pairs (fa : List ℚ) :
    (combine_pairs_to_complex fa).length = fa.length / 2 ∧
    (∀ i, i < fa.length / 2 →
      (combine_pairs_to_complex fa).getD i (0, 0) =
        (fa.getD (i * 2) 0, fa.getD (i * 2 + 1) 0)) ∧
    (∀ x : ℚ, fa.length % 2 = 0 →
      combine_pairs_to_complex (fa ++ [x]) = combine_pairs_to_complex fa) := by
  refine ⟨by simp [combine_pairs_to_complex], ?_, ?_⟩
  · intro i hi
    rw [combine_pairs_to_complex, List.getD_eq_getElem?_getD, List.getElem?_map,
      List.getElem?_range hi]
    rfl
  · intro x hx
    have h2 : (fa ++ [x]).length / 2 = fa.length / 2 := by simp; omega
    unfold combine_pairs_to_complex
    rw [h2]
    apply List.map_congr_left
    intro i hi
    rw [List.mem_range] at hi
    have h1 : i * 2 < fa.length := by omega
    have h2' : i * 2 + 1 < fa.length := by omega
    rw [List.getD_append _ _ _ _ h1, List.getD_append _ _ _ _ h2']

theorem claim_C10_combine_pairs_witness :
    (combine_pairs_to_complex [1, 2, 3]).length = 1 ∧
    (combine_pairs_to_complex [(1 : ℚ), 2, 3, 5]).getD 1 (0, 0) =
      ([(1 : ℚ), 2, 3, 5].getD 2 0, [(1 : ℚ), 2, 3, 5].getD 3 0) :=
  ⟨(claim_C10_combine_pairs [1, 2, 3]).1,
    (claim_C10_combine_pairs [(1 : ℚ), 2, 3, 5]).2.1 1 (by norm_num)⟩

end OnnxNumpyHelper
